import Mathlib

/-! Verification of the transcript insight-extraction pipeline.

Shallow embedding of `tran/extract_insights_clean.py`
(`TranscriptInsightExtractor`).  Python `float` ratios are modelled as
exact rationals (`ℚ`); Python `dict`s whose insertion order matters are
modelled as ordered association lists; Python exceptions (KeyError,
ZeroDivisionError) are modelled with `Option`/`Except`.  The injected
external capabilities (OpenAI text generation, TextBlob sentiment) are
modelled as function parameters, as the spec's component design directs.

Because the library marks `Rat.add`, `Rat.mul`, `Rat.sub` and division
`@[irreducible]`, the embedding computes with the kernel-reducible
wrappers `ratAdd`, `ratMul`, `ratSub`, `ratDiv`, `ratAbs`, `ratMin`,
`ratSum` below; the `…_eq` bridge lemmas prove each wrapper equal to the
corresponding standard operation, so theorems can be read and proved in
ordinary arithmetic while concrete runs evaluate by `decide`.
-/

namespace Tran

/-- Addition `a + b` on `ℚ`, by the textbook cross-multiplication formula. -/
def ratAdd (a b : ℚ) : ℚ := Rat.divInt (a.num * b.den + b.num * a.den) (a.den * b.den)

/-- Multiplication `a * b` on `ℚ`. -/
def ratMul (a b : ℚ) : ℚ := Rat.divInt (a.num * b.num) (a.den * b.den)

/-- Subtraction `a - b` on `ℚ`. -/
def ratSub (a b : ℚ) : ℚ := Rat.divInt (a.num * b.den - b.num * a.den) (a.den * b.den)

/-- Division `a / b` on `ℚ` (0 when `b = 0`, as in `Field ℚ`). -/
def ratDiv (a b : ℚ) : ℚ := Rat.divInt (a.num * b.den) (a.den * b.num)

/-- Absolute value `|a|` on `ℚ`. -/
def ratAbs (a : ℚ) : ℚ := if a < 0 then -a else a

/-- Minimum `min a b` on `ℚ`. -/
def ratMin (a b : ℚ) : ℚ := if a ≤ b then a else b

/-- Sum of a list of rationals. -/
def ratSum : List ℚ → ℚ
  | [] => 0
  | x :: xs => ratAdd x (ratSum xs)

theorem ratAdd_eq (a b : ℚ) : ratAdd a b = a + b := by
  rw [ratAdd]
  conv_rhs => rw [← Rat.num_divInt_den a, ← Rat.num_divInt_den b]
  rw [Rat.divInt_add_divInt _ _ (by exact_mod_cast a.den_ne_zero)
    (by exact_mod_cast b.den_ne_zero)]

theorem ratMul_eq (a b : ℚ) : ratMul a b = a * b := by
  rw [ratMul]
  conv_rhs => rw [← Rat.num_divInt_den a, ← Rat.num_divInt_den b]
  rw [Rat.divInt_mul_divInt _ _ (by exact_mod_cast a.den_ne_zero)
    (by exact_mod_cast b.den_ne_zero)]

theorem ratSub_eq (a b : ℚ) : ratSub a b = a - b := by
  rw [ratSub]
  conv_rhs => rw [← Rat.num_divInt_den a, ← Rat.num_divInt_den b]
  rw [Rat.divInt_sub_divInt _ _ (by exact_mod_cast a.den_ne_zero)
    (by exact_mod_cast b.den_ne_zero)]

theorem ratDiv_eq (a b : ℚ) : ratDiv a b = a / b := by
  rw [ratDiv]
  conv_rhs => rw [← Rat.num_divInt_den a, ← Rat.num_divInt_den b]
  rw [Rat.divInt_div_divInt]

theorem ratAbs_eq (a : ℚ) : ratAbs a = |a| := by
  rcases lt_or_ge a 0 with h | h
  · rw [ratAbs, if_pos h, abs_of_neg h]
  · rw [ratAbs, if_neg (not_lt.mpr h), abs_of_nonneg h]

theorem ratMin_eq (a b : ℚ) : ratMin a b = min a b := by
  rw [ratMin, min_def]

theorem ratSum_eq (xs : List ℚ) : ratSum xs = xs.sum := by
  induction xs with
  | nil => rfl
  | cons x xs ih => rw [ratSum, ratAdd_eq, ih, List.sum_cons]

/-- A parsed transcript message: `{speaker, timestamp, message}`
(`conversation` entries of `parsed_transcript.json`). -/
structure Msg where
  speaker : String
  timestamp : String
  message : String
deriving DecidableEq, Repr

/-- Python `str.lower()` (ASCII, which is all the pipeline's keyword data uses):
lower-case every character. -/
def pyLower (s : String) : String := ⟨s.data.map Char.toLower⟩

/-- Does `hay` start with `needle` (on character lists)? -/
def leadMatch : List Char → List Char → Bool
  | [], _ => true
  | _ :: _, [] => false
  | a :: as, b :: bs => a == b && leadMatch as bs

/-- Does `hay` contain `needle` as a contiguous sublist? -/
def containsSub (needle : List Char) : List Char → Bool
  | [] => needle.isEmpty
  | b :: bs => leadMatch needle (b :: bs) || containsSub needle bs

/-- Python `needle in hay` on strings: substring containment. -/
def substrOf (needle hay : String) : Bool :=
  containsSub needle.toList hay.toList

/-- Does `s` start with `pre`? -/
def strStarts (pre s : String) : Bool := leadMatch pre.data s.data

/-- Embeds `self.technical_keywords`: six groups of technical keywords. -/
def technicalKeywords : List (String × List String) :=
  [("ai_ml", ["ai", "ml", "machine learning", "artificial intelligence", "model",
      "training", "algorithm", "neural network", "gpt", "claude", "llm", "prompt",
      "inference"]),
   ("development", ["code", "coding", "programming", "development", "github",
      "vercel", "react", "javascript", "python", "api", "database", "frontend",
      "backend", "microservices"]),
   ("security", ["security", "compliance", "encryption", "authentication",
      "authorization", "vulnerabilities", "threats", "cybersecurity", "siem", "soc"]),
   ("business", ["client", "customer", "revenue", "pricing", "sales", "marketing",
      "business model", "strategy", "competitive", "market"]),
   ("infrastructure", ["cloud", "aws", "azure", "kubernetes", "docker",
      "infrastructure", "deployment", "scaling", "architecture"]),
   ("automation", ["automation", "workflow", "process", "efficiency",
      "optimization", "integration", "pipeline"])]

/-- Embeds `self.business_keywords`: five groups of business keywords. -/
def businessKeywords : List (String × List String) :=
  [("strategy", ["strategy", "strategic", "vision", "roadmap", "planning",
      "objectives", "goals"]),
   ("operations", ["operations", "process", "workflow", "efficiency",
      "optimization", "management"]),
   ("finance", ["cost", "pricing", "revenue", "budget", "investment", "roi",
      "financial"]),
   ("sales", ["sales", "selling", "prospect", "lead", "conversion", "pipeline",
      "funnel"]),
   ("product", ["product", "feature", "development", "iteration", "feedback",
      "user experience"])]

/-- Embeds `personal_indicators` in `_classify_message_topics`. -/
def personalIndicators : List String :=
  ["personal", "family", "life", "feeling", "tired", "weekend"]

/-- Embeds `professional_indicators` in `_classify_message_topics`. -/
def professionalIndicators : List String :=
  ["project", "client", "work", "business", "meeting", "deadline"]

/-- Embeds `sum(1 for keyword in keywords if keyword in message_lower)`. -/
def countMatches (keywords : List String) (messageLower : String) : ℕ :=
  (keywords.filter (fun k => substrOf k messageLower)).length

/-- Embeds `_classify_message_topics`: label → score association list, in the
dict-insertion order of the Python code (technical groups, then business
groups, then exactly one of personal/professional). -/
def classifyMessageTopics (message : String) : List (String × ℚ) :=
  let messageLower := pyLower message
  let tech := technicalKeywords.filterMap (fun g =>
    let score := countMatches g.2 messageLower
    if score > 0 then some ("tech_" ++ g.1, ratDiv score g.2.length) else none)
  let biz := businessKeywords.filterMap (fun g =>
    let score := countMatches g.2 messageLower
    if score > 0 then some ("business_" ++ g.1, ratDiv score g.2.length) else none)
  let personalScore := countMatches personalIndicators messageLower
  let professionalScore := countMatches professionalIndicators messageLower
  let pp :=
    if personalScore > professionalScore then
      [("personal", ratDiv personalScore personalIndicators.length)]
    else
      [("professional", ratDiv professionalScore professionalIndicators.length)]
  tech ++ biz ++ pp

/-- Python `scores.get(label)` on the ordered association list (first match). -/
def lookupScore (scores : List (String × ℚ)) (label : String) : Option ℚ :=
  (scores.find? (fun p => p.1 == label)).map Prod.snd

/-- The seven literal transition phrases of `_is_topic_transition`. -/
def transitionPhrases : List String :=
  ["moving on", "next topic", "switching to", "let\x27s talk about",
   "on another note", "changing subjects", "speaking of"]

/-- Python `topic_buffer[-3:]`: the last (up to) three entries. -/
def lastThree (buf : List Msg) : List Msg := (buf.reverse.take 3).reverse

/-- Value of `_average_topic_scores(topic_lists)[label]`: the mean of the
per-classification scores for `label`, a missing label counting as 0. -/
def avgScore (topicLists : List (List (String × ℚ))) (label : String) : ℚ :=
  ratDiv (ratSum (topicLists.map (fun ts => (lookupScore ts label).getD 0)))
    topicLists.length

/-- Is `label` a key of `_average_topic_scores(topic_lists)` (i.e. present in
at least one of the classifications)? -/
def inAnyKeys (topicLists : List (List (String × ℚ))) (label : String) : Bool :=
  topicLists.any (fun ts => ts.any (fun p => p.1 == label))

/-- Embeds `_is_topic_transition(topic_buffer, current_msg, current_topics)`. -/
def isTopicTransition (topicBuffer : List Msg) (currentMsg : Msg)
    (currentTopics : List (String × ℚ)) : Bool :=
  if topicBuffer.isEmpty then true
  else
    let msgLower := pyLower currentMsg.message
    if transitionPhrases.any (fun phrase => substrOf phrase msgLower) then true
    else if topicBuffer.length ≥ 3 then
      let recentTopics := (lastThree topicBuffer).map (fun m => classifyMessageTopics m.message)
      currentTopics.any (fun p =>
        !inAnyKeys recentTopics p.1 ||
          ratAbs (ratSub p.2 (avgScore recentTopics p.1)) > Rat.divInt 3 10)
    else false

/-- The transition criterion as claim C4 words it (a definition following the
spec's words, for comparison with `isTopicTransition`): some label present in
either the current message's score vector or the mean score vector of the
last 3 buffered messages differs between the two vectors by more than 0.3 in
absolute value, a label missing from one vector counting as score 0. -/
def specTransitionCriterion (topicBuffer : List Msg) (currentMsg : Msg) : Bool :=
  let recentTopics := (lastThree topicBuffer).map (fun m => classifyMessageTopics m.message)
  let cur := classifyMessageTopics currentMsg.message
  let labels := cur.map (·.1) ++ (recentTopics.map (fun ts => ts.map (·.1))).flatten
  labels.any (fun l =>
    ratAbs (ratSub ((lookupScore cur l).getD 0) (avgScore recentTopics l)) > Rat.divInt 3 10)

/-- The mutable per-topic accumulator dict built by `_start_new_topic` and
`_update_topic`. -/
structure TopicData where
  primaryTopic : String
  category : String
  startTime : String
  speakers : List String
  topicsDiscussed : List (String × ℚ)
deriving DecidableEq, Repr

/-- Python `max(items, key=lambda x: x[1])`: first maximal entry wins ties. -/
def argmaxFirst : List (String × ℚ) → Option (String × ℚ)
  | [] => none
  | p :: ps => some (ps.foldl (fun best q => if q.2 > best.2 then q else best) p)

/-- Embeds `_start_new_topic(message_topics, msg)`. -/
def startNewTopic (messageTopics : List (String × ℚ)) (msg : Msg) : TopicData :=
  match argmaxFirst messageTopics with
  | none =>
      { primaryTopic := "general_discussion", category := "general",
        startTime := msg.timestamp, speakers := [msg.speaker],
        topicsDiscussed := messageTopics }
  | some p =>
      { primaryTopic := p.1,
        category := if strStarts "tech_" p.1 then "technical" else "business",
        startTime := msg.timestamp, speakers := [msg.speaker],
        topicsDiscussed := messageTopics }

/-- Embeds `_update_topic`'s score merge: per-label max; existing keys keep their
position, new keys are appended in encounter order. -/
def mergeScores (acc : List (String × ℚ)) (new : List (String × ℚ)) : List (String × ℚ) :=
  new.foldl (fun acc p =>
    if acc.any (fun q => q.1 == p.1) then
      acc.map (fun q => if q.1 == p.1 then (q.1, if q.2 ≤ p.2 then p.2 else q.2) else q)
    else acc ++ [p]) acc

/-- Embeds `_update_topic(current_topic, message_topics)`. -/
def updateTopic (currentTopic : TopicData) (messageTopics : List (String × ℚ)) : TopicData :=
  { currentTopic with topicsDiscussed := mergeScores currentTopic.topicsDiscussed messageTopics }

/-- Embeds `" ".join(strings)`. -/
def joinSpace : List String → String
  | [] => ""
  | [s] => s
  | s :: rest => s ++ " " ++ joinSpace rest

/-- The stop-word set of `_generate_keyword_title`. -/
def stopWords : List String :=
  ["that", "this", "with", "have", "will", "from", "they", "been", "were",
   "said", "each", "which", "their", "time", "like", "just", "know", "think",
   "want", "need", "make", "come", "going", "really", "would", "could", "should"]

/-- A regex `\w` character (ASCII): letter, digit or underscore. -/
def isWordChar (c : Char) : Bool := c.isAlphanum || c == '_'

/-- Embeds `re.findall(r'\b[a-zA-Z]{4,}\b', text)`: the maximal word-character runs
of `text` that consist solely of ASCII letters and have length ≥ 4. -/
def wordTokens (text : String) : List String :=
  ((text.data.splitOnP (fun c => !isWordChar c)).filter
    (fun r => r.length ≥ 4 && r.all (fun c => c.isAlpha))).map (fun r => ⟨r⟩)

/-- Embeds `Counter(xs)`: (element, count) pairs in first-occurrence order. -/
def countsInOrder (xs : List String) : List (String × ℕ) :=
  xs.eraseDups.map (fun k => (k, xs.count k))

/-- Stable insert for descending-count order: the new entry goes after
existing entries with an equal or larger count. -/
def insertByCountDesc (p : String × ℕ) : List (String × ℕ) → List (String × ℕ)
  | [] => [p]
  | q :: qs => if q.2 < p.2 then p :: q :: qs else q :: insertByCountDesc p qs

/-- Embeds `Counter.most_common(n)`: by count descending, ties kept in
first-occurrence order (Python's sort is stable). -/
def mostCommon (xs : List String) (n : ℕ) : List String :=
  (((countsInOrder xs).foldl (fun acc p => insertByCountDesc p acc) []).take n).map (·.1)

/-- Embeds `str.title()` on a single lowercase word: capitalize its first letter. -/
def capitalizeWord (w : String) : String :=
  match w.data with
  | [] => ""
  | c :: cs => ⟨c.toUpper :: cs⟩

/-- Embeds `_generate_keyword_title(messages)` (which is all `_generate_topic_title`
does: "Always use keyword-based title generation (no AI calls)"). -/
def generateKeywordTitle (messages : List Msg) : String :=
  let text := joinSpace (messages.map (·.message))
  let words := wordTokens (pyLower text)
  let meaningfulWords := words.filter (fun w => !stopWords.contains w)
  let topWords := mostCommon meaningfulWords 3
  if topWords.isEmpty then "General Discussion"
  else joinSpace (topWords.map capitalizeWord)

/-- Decimal digit-string value. -/
def digitsToNat (cs : List Char) : Option ℕ :=
  if cs ≠ [] ∧ cs.all Char.isDigit then
    some (cs.foldl (fun a c => a * 10 + (c.toNat - 48)) 0)
  else none

/-- Gregorian month lengths (for `strptime` date validation). -/
def daysInMonth (y m : ℕ) : ℕ :=
  if m = 2 then (if y % 4 = 0 ∧ (y % 100 ≠ 0 ∨ y % 400 = 0) then 29 else 28)
  else if m = 4 ∨ m = 6 ∨ m = 9 ∨ m = 11 then 30 else 31

/-- Proleptic-Gregorian day number (standard Julian-day formula; all
intermediate values are positive, so truncated division is floor). -/
def dayNumber (y m d : ℕ) : ℤ :=
  let a : ℤ := (14 - (m : ℤ)) / 12
  let y' : ℤ := (y : ℤ) + 4800 - a
  let m' : ℤ := (m : ℤ) + 12 * a - 3
  (d : ℤ) + (153 * m' + 2) / 5 + 365 * y' + y' / 4 - y' / 100 + y' / 400 - 32045

/-- Embeds `datetime.strptime(s, "%Y-%m-%d %I:%M %p")`, as absolute minutes;
`none` models the `ValueError` of a malformed timestamp. -/
def parseTimestamp (s : String) : Option ℤ :=
  match s.data.splitOnP (fun c => c == ' ') with
  | [datePart, timePart, ampm] =>
    match datePart.splitOnP (fun c => c == '-'), timePart.splitOnP (fun c => c == ':') with
    | [ys, ms, ds], [hs, mins] => do
      let y ← digitsToNat ys
      let mo ← digitsToNat ms
      let d ← digitsToNat ds
      let h ← digitsToNat hs
      let mi ← digitsToNat mins
      if 1 ≤ mo ∧ mo ≤ 12 ∧ 1 ≤ d ∧ d ≤ daysInMonth y mo ∧ 1 ≤ h ∧ h ≤ 12 ∧ mi ≤ 59
          ∧ (ampm = ['A', 'M'] ∨ ampm = ['P', 'M']) then
        let hour24 : ℤ := (h % 12 : ℕ) + (if ampm = ['P', 'M'] then 12 else 0)
        some (dayNumber y mo d * 1440 + hour24 * 60 + mi)
      else none
    | _, _ => none
  | _ => none

/-- Embeds `_calculate_duration(start_time, end_time)`: minutes between the two
timestamps, `0.0` when either fails to parse (the bare `except`). -/
def calculateDuration (startTime endTime : String) : ℚ :=
  match parseTimestamp startTime, parseTimestamp endTime with
  | some s, some e => ((e - s : ℤ) : ℚ)
  | _, _ => 0

/-- Embeds `decision_indicators` in `_extract_key_content`. -/
def decisionIndicators : List String :=
  ["decided", "agreed", "conclusion", "final", "settled"]

/-- Embeds `action_indicators` in `_extract_key_content`. -/
def actionIndicators : List String :=
  ["will", "should", "need to", "going to", "plan to", "next step"]

/-- Python `s[:200]`. -/
def take200 (s : String) : String := ⟨s.data.take 200⟩

/-- Embeds `_extract_key_content(messages)`: (key points ≤5, decisions ≤3,
action items ≤5), each excerpt truncated to 200 characters, in encounter
order. -/
def extractKeyContent (messages : List Msg) :
    List String × List String × List String :=
  let keyPoints := (messages.filter (fun m =>
      m.message.length > 100 &&
      (substrOf "important" (pyLower m.message) || substrOf "key" (pyLower m.message)))).map
    (fun m => take200 m.message)
  let decisions := (messages.filter (fun m =>
      decisionIndicators.any (fun k => substrOf k (pyLower m.message)))).map
    (fun m => take200 m.message)
  let actions := (messages.filter (fun m =>
      actionIndicators.any (fun k => substrOf k (pyLower m.message)))).map
    (fun m => take200 m.message)
  (keyPoints.take 5, decisions.take 3, actions.take 5)

/-- Embeds `label.replace('_', '-')`. -/
def dashify (label : String) : String :=
  ⟨label.data.map (fun c => if c == '_' then '-' else c)⟩

/-- Embeds `_generate_tags(topic_scores, messages)`.  Python returns
`list(set(tags))`, whose order is unspecified (hash-dependent); we model the
set by first-occurrence deduplication, and no theorem depends on tag order. -/
def generateTags (topicScores : List (String × ℚ)) (messages : List Msg) : List String :=
  let tags := (topicScores.filter (fun p => p.2 > Rat.divInt 1 10)).map (fun p => dashify p.1)
  let allText := pyLower (joinSpace (messages.map (·.message)))
  let tags := tags ++
    (if ["question", "how", "what", "why", "when"].any (fun w => substrOf w allText)
     then ["questioning"] else []) ++
    (if ["suggest", "recommend", "propose"].any (fun w => substrOf w allText)
     then ["advisory"] else []) ++
    (if ["concern", "worry", "risk"].any (fun w => substrOf w allText)
     then ["cautious"] else []) ++
    (if ["excited", "great", "awesome", "love"].any (fun w => substrOf w allText)
     then ["enthusiastic"] else [])
  tags.eraseDups

/-- Embeds `_calculate_context_score(messages)`; `none` models the
`ZeroDivisionError` raised when the participant roster is empty
(`unique_speakers / len(self.participants)` has no guard). -/
def contextScore (messages : List Msg) (participants : List String) : Option ℚ :=
  if participants.length = 0 then none
  else
    let totalLength : ℕ := (messages.map (·.message.length)).sum
    let uniqueSpeakers : ℕ := ((messages.map (·.speaker)).eraseDups).length
    let lengthScore := ratMin (ratDiv totalLength 1000) 1
    let speakerScore := ratDiv uniqueSpeakers participants.length
    some (ratDiv (ratAdd lengthScore speakerScore) 2)

/-- The `TopicDiscussion` dataclass. -/
structure TopicDiscussion where
  id : String
  title : String
  tags : List String
  category : String
  subcategory : String
  startTime : String
  endTime : String
  durationMinutes : ℚ
  messageCount : ℕ
  speakers : List String
  keyPoints : List String
  decisions : List String
  actionItems : List String
  contextScore : ℚ
deriving DecidableEq, Repr

/-- Embeds `_finalize_topic(topic_data, messages)`.  The inner `Option` is the
Python return value (`None` for an empty message list, which the caller
skips); the outer `Option` is exception propagation (`none` when
`_calculate_context_score` divides by zero).  `pyHash` is the runtime
string-hash function used for `id=f"topic_{hash(topic_title)}"`; it is a
parameter because Python's `hash` is salted per process. -/
def finalizeTopic (pyHash : String → ℤ) (participants : List String)
    (topicData : TopicData) (messages : List Msg) : Option (Option TopicDiscussion) :=
  match messages with
  | [] => some none
  | first :: _ =>
    let title := generateKeywordTitle messages
    let startTime := first.timestamp
    let endTime := (messages.getLast?.getD first).timestamp
    let duration := calculateDuration startTime endTime
    let kc := extractKeyContent messages
    let tags := generateTags topicData.topicsDiscussed messages
    match contextScore messages participants with
    | none => none
    | some cs => some (some
        { id := "topic_" ++ toString (pyHash title)
          title := title
          tags := tags
          category := topicData.category
          subcategory := topicData.primaryTopic
          startTime := startTime
          endTime := endTime
          durationMinutes := duration
          messageCount := messages.length
          speakers := topicData.speakers
          keyPoints := kc.1
          decisions := kc.2.1
          actionItems := kc.2.2
          contextScore := cs })

/-- The `if current_topic and topic_buffer:` finalization guard of
`extract_topics`: the segment emitted at a boundary (empty when there is no
active topic or the buffer is empty). -/
def finalizeBuffer (cur : Option TopicData) (buf : List Msg) :
    List (TopicData × List Msg) :=
  match cur with
  | some td => if buf.isEmpty then [] else [(td, buf)]
  | none => []

/-- The sequential loop of `extract_topics`, recorded at the segmentation
level: the `(accumulator, buffered messages)` pair of each finalized
segment, in emission order.  `cur`/`buf` are the loop's `current_topic` and
`topic_buffer`. -/
def segmentsAux (cur : Option TopicData) (buf : List Msg) :
    List Msg → List (TopicData × List Msg)
  | [] => finalizeBuffer cur buf
  | msg :: rest =>
    let messageTopics := classifyMessageTopics msg.message
    if isTopicTransition buf msg messageTopics then
      finalizeBuffer cur buf ++
        segmentsAux (some (startNewTopic messageTopics msg)) [msg] rest
    else
      segmentsAux (cur.map (fun td => updateTopic td messageTopics)) (buf ++ [msg]) rest

/-- The segmentation of a corpus: `extract_topics`' loop starting from
`current_topic = None`, `topic_buffer = []`. -/
def segments (corpus : List Msg) : List (TopicData × List Msg) :=
  segmentsAux none [] corpus

/-- Embeds `extract_topics()`.  The code finalizes each segment as its boundary is
found; finalization is pure, so collecting the segments first and mapping
`_finalize_topic` over them yields the same list, with `none` propagating an
uncaught exception exactly as a Python `raise` aborts the loop. -/
def extractTopics (pyHash : String → ℤ) (participants : List String)
    (corpus : List Msg) : Option (List TopicDiscussion) :=
  ((segments corpus).mapM (fun s => finalizeTopic pyHash participants s.1 s.2)).map
    List.reduceOption

/-- The `SpeakerInsight` dataclass. -/
structure SpeakerInsight where
  speaker : String
  topicId : String
  insight : String
  tags : List String
  confidenceScore : ℚ
  supportingEvidence : List String
  sentiment : String
  expertiseLevel : String
  engagementLevel : String
deriving DecidableEq, Repr

/-- Python `str.split()` (no argument): split on whitespace runs, dropping
empty pieces. -/
def pyWords (s : String) : List String :=
  ((s.data.splitOnP Char.isWhitespace).filter (fun r => !r.isEmpty)).map (fun r => ⟨r⟩)

/-- Embeds `_generate_heuristic_insight(speaker, messages, topic)`.  (The Python
division by `message_count` is only reached with ≥ 2 messages, see
`extract_speaker_insights`; `ratDiv` returns 0 on an empty list where Python
would raise.) -/
def generateHeuristicInsight (speaker : String) (messages : List Msg)
    (topic : TopicDiscussion) : String :=
  let messageCount := messages.length
  let avgLength := ratDiv ((messages.map (·.message.length)).sum : ℚ) messageCount
  if avgLength > 100 then
    speaker ++ " provided detailed explanations and deep insights on " ++ topic.title
  else if messageCount > 5 then
    speaker ++ " was highly engaged in the discussion about " ++ topic.title
  else
    speaker ++ " contributed to the conversation about " ++ topic.title

/-- Embeds `_classify_sentiment(polarity)`: > 0.15 positive, < −0.15 negative,
else neutral. -/
def classifySentiment (polarity : ℚ) : String :=
  if polarity > Rat.divInt 15 100 then "positive"
  else if polarity < Rat.divInt (-15) 100 then "negative"
  else "neutral"

/-- Embeds `_assess_expertise_level(text)`. -/
def assessExpertiseLevel (text : String) : String :=
  let textLower := pyLower text
  let technicalCount := (technicalKeywords.map (fun g => countMatches g.2 textLower)).sum
  let wordCount := (pyWords text).length
  if wordCount = 0 then "novice"
  else
    let technicalRatio := ratDiv technicalCount wordCount
    if technicalRatio > Rat.divInt 1 10 then "expert"
    else if technicalRatio > Rat.divInt 5 100 then "intermediate"
    else "novice"

/-- Embeds `_assess_engagement_level(messages, topic)`: the speaker's share of the
topic's messages, with the zero-denominator guard returning 0. -/
def assessEngagementLevel (messages : List Msg) (topic : TopicDiscussion) : String :=
  let participationRatio :=
    if topic.messageCount > 0 then ratDiv (messages.length : ℚ) topic.messageCount else 0
  if participationRatio > Rat.divInt 6 10 then "dominant"
  else if participationRatio > Rat.divInt 3 10 then "high"
  else if participationRatio > Rat.divInt 1 10 then "medium"
  else "low"

/-- Embeds `_generate_insight_tags(text, messages)` (the `messages` argument is
unused in the Python body). -/
def generateInsightTags (text : String) (_messages : List Msg) : List String :=
  let textLower := pyLower text
  let tags :=
    (if ["question", "how", "what", "why", "when"].any (fun w => substrOf w textLower)
     then ["questioning"] else []) ++
    (if ["suggest", "recommend", "propose"].any (fun w => substrOf w textLower)
     then ["advisory"] else []) ++
    (if ["concern", "worry", "risk"].any (fun w => substrOf w textLower)
     then ["cautious"] else []) ++
    (if ["excited", "great", "awesome", "love"].any (fun w => substrOf w textLower)
     then ["enthusiastic"] else [])
  tags.eraseDups

/-- Embeds `_calculate_insight_confidence(messages, topic)` (the `topic` argument is
unused in the Python body). -/
def calculateInsightConfidence (messages : List Msg) (_topic : TopicDiscussion) : ℚ :=
  let countScore := ratMin (ratDiv (messages.length : ℚ) 5) 1
  let lengthScore := ratMin (ratDiv (((messages.map (·.message.length)).sum : ℕ) : ℚ) 500) 1
  ratDiv (ratAdd countScore lengthScore) 2

/-- Embeds `_generate_speaker_insight(speaker, messages, topic)`.  `aiResult` is the
outcome of the `try` block around `_generate_ai_insight` (the injected
text-generation capability): `.ok text` if the call returned, `.error e` for
any raised exception — the bare `except:` catches every failure and falls
back to `_generate_heuristic_insight`.  `sentOf` is the injected TextBlob
sentiment capability, text ↦ (polarity, subjectivity). -/
def generateSpeakerInsight (aiResult : Except String String)
    (sentOf : String → ℚ × ℚ) (speaker : String) (messages : List Msg)
    (topic : TopicDiscussion) : SpeakerInsight :=
  let combinedText := joinSpace (messages.map (·.message))
  let insightText :=
    match aiResult with
    | .ok t => t
    | .error _ => generateHeuristicInsight speaker messages topic
  { speaker := speaker
    topicId := topic.id
    insight := insightText
    tags := generateInsightTags combinedText messages
    confidenceScore := calculateInsightConfidence messages topic
    supportingEvidence := (messages.take 3).map
      (fun m => (⟨m.message.data.take 150⟩ : String) ++ "...")
    sentiment := classifySentiment (sentOf combinedText).1
    expertiseLevel := assessExpertiseLevel combinedText
    engagementLevel := assessEngagementLevel messages topic }

/-- Python string `<=`: code-point lexicographic order. -/
def charListLe : List Char → List Char → Bool
  | [], _ => true
  | _ :: _, [] => false
  | a :: as, b :: bs =>
    if a.val < b.val then true else if b.val < a.val then false else charListLe as bs

/-- Python `a <= b` on strings. -/
def pyStrLe (a b : String) : Bool := charListLe a.data b.data

/-- Embeds `extract_speaker_insights(topics)`: per topic, the messages in its
timestamp span, grouped by speaker in first-occurrence order; an insight for
each speaker with ≥ 2 messages.  `ai speaker text500 title` is the injected
text-generation call for that (speaker, topic) pair. -/
def extractSpeakerInsights (ai : String → String → String → Except String String)
    (sentOf : String → ℚ × ℚ) (conversations : List Msg)
    (topics : List TopicDiscussion) : List SpeakerInsight :=
  (topics.map (fun topic =>
    let topicMessages := conversations.filter (fun m =>
      pyStrLe topic.startTime m.timestamp && pyStrLe m.timestamp topic.endTime)
    let speakers := (topicMessages.map (·.speaker)).eraseDups
    speakers.filterMap (fun speaker =>
      let msgs := topicMessages.filter (fun m => m.speaker == speaker)
      if msgs.length ≥ 2 then
        some (generateSpeakerInsight
          (ai speaker (⟨(joinSpace (msgs.map (·.message))).data.take 500⟩ : String) topic.title)
          sentOf speaker msgs topic)
      else none))).flatten

/-- Embeds `_generate_sentiment_tags(sentiment, text)`; Python's `list(set(tags))`
modelled as first-occurrence deduplication. -/
def generateSentimentTags (polarity subjectivity : ℚ) (text : String) : List String :=
  let tags :=
    (if polarity > Rat.divInt 15 100 then ["positive"]
     else if polarity < Rat.divInt (-15) 100 then ["negative"]
     else ["neutral"]) ++
    (if subjectivity > Rat.divInt 5 10 then ["subjective"] else ["objective"]) ++
    (if ratAbs polarity > Rat.divInt 5 10 then ["intense"] else []) ++
    (if ["excited", "love", "hate", "angry", "worried"].any
        (fun w => substrOf w (pyLower text))
     then ["emotional"] else [])
  tags.eraseDups

/-- Result dict of `_analyze_topic_diarization`. -/
structure TopicDiarizationEntry where
  speakerParticipation : List (String × ℚ)
  mostActiveSpeaker : Option String
  uniqueSpeakers : ℕ
deriving DecidableEq, Repr

/-- Python `max(keys, key=lambda k: counts[k])`: first maximal key wins. -/
def argmaxCount : List (String × ℕ) → Option String
  | [] => none
  | p :: ps => some ((ps.foldl (fun best q => if q.2 > best.2 then q else best) p).1)

/-- Embeds `_analyze_topic_diarization(topic_messages)`; `none` is the `{}` returned
for an empty message list.  `Counter` iterates in first-occurrence order. -/
def analyzeTopicDiarization (topicMessages : List Msg) : Option TopicDiarizationEntry :=
  if topicMessages.isEmpty then none
  else
    let speakers := (topicMessages.map (·.speaker)).eraseDups
    let counts := speakers.map (fun s =>
      (s, (topicMessages.filter (fun m => m.speaker == s)).length))
    let total := (counts.map (·.2)).sum
    some
      { speakerParticipation := counts.map (fun p => (p.1, ratDiv (p.2 : ℚ) total))
        mostActiveSpeaker := argmaxCount counts
        uniqueSpeakers := counts.length }

/-- One per-speaker entry of `speaker_sentiments`. -/
structure SpeakerSentimentEntry where
  overallSentiment : String
  polarity : ℚ
  subjectivity : ℚ
  emotionalIntensity : ℚ
  messageCount : ℕ
  tags : List String
deriving DecidableEq, Repr

/-- One per-topic entry of `topic_sentiments`. -/
structure TopicSentimentEntry where
  sentiment : String
  polarity : ℚ
  subjectivity : ℚ
  tags : List String
  diarization : Option TopicDiarizationEntry
deriving DecidableEq, Repr

/-- One window record of `_create_sentiment_timeline`. -/
structure TimelineEntry where
  startMessage : ℕ
  endMessage : ℕ
  timestamp : String
  sentiment : String
  polarity : ℚ
  subjectivity : ℚ
deriving DecidableEq, Repr

/-- The window loop of `_create_sentiment_timeline` (`window_size = 10`):
`i` is the current start index, `total` the full corpus length. -/
def timelineAux (sentOf : String → ℚ × ℚ) (total : ℕ) :
    ℕ → List Msg → List TimelineEntry
  | _, [] => []
  | i, first :: rest =>
    let chunk := (first :: rest).take 10
    let ps := sentOf (joinSpace (chunk.map (·.message)))
    { startMessage := i
      endMessage := min (i + 9) (total - 1)
      timestamp := first.timestamp
      sentiment := classifySentiment ps.1
      polarity := ps.1
      subjectivity := ps.2 } :: timelineAux sentOf total (i + 10) (rest.drop 9)
  termination_by _ msgs => msgs.length
  decreasing_by simp [List.length_drop]; omega

/-- Embeds `_create_sentiment_timeline(messages)`. -/
def createSentimentTimeline (sentOf : String → ℚ × ℚ) (messages : List Msg) :
    List TimelineEntry :=
  timelineAux sentOf messages.length 0 messages

/-- The `SentimentAnalysis` dataclass. -/
structure SentimentAnalysis where
  overallSentiment : String
  confidence : ℚ
  emotionalIntensity : ℚ
  speakerSentiments : List (String × SpeakerSentimentEntry)
  topicSentiments : List (String × TopicSentimentEntry)
  sentimentTimeline : List TimelineEntry
deriving DecidableEq, Repr

/-- Embeds `analyze_sentiment(topics)`.  `sentOf` is the injected sentiment
capability (`_get_sentiment_scores` over TextBlob): text ↦ (polarity,
subjectivity), returning (0, 0) on empty text or failure. -/
def analyzeSentiment (sentOf : String → ℚ × ℚ) (conversations : List Msg)
    (participants : List String) (topics : List TopicDiscussion) : SentimentAnalysis :=
  let allText := joinSpace (conversations.map (·.message))
  let op := sentOf allText
  let speakerSentiments := participants.map (fun speaker =>
    let speakerMessages := conversations.filter (fun m => m.speaker == speaker)
    let speakerText := joinSpace (speakerMessages.map (·.message))
    let ps := sentOf speakerText
    (speaker,
      { overallSentiment := classifySentiment ps.1
        polarity := ps.1
        subjectivity := ps.2
        emotionalIntensity := ratAbs ps.1
        messageCount := speakerMessages.length
        tags := generateSentimentTags ps.1 ps.2 speakerText
        : SpeakerSentimentEntry }))
  let topicSentiments := topics.map (fun topic =>
    let topicMessages := conversations.filter (fun m =>
      pyStrLe topic.startTime m.timestamp && pyStrLe m.timestamp topic.endTime)
    let topicText := joinSpace (topicMessages.map (·.message))
    let ps := sentOf topicText
    (topic.id,
      { sentiment := classifySentiment ps.1
        polarity := ps.1
        subjectivity := ps.2
        tags := generateSentimentTags ps.1 ps.2 topicText
        diarization := analyzeTopicDiarization topicMessages
        : TopicSentimentEntry }))
  { overallSentiment := classifySentiment op.1
    confidence := ratAbs op.1
    emotionalIntensity := ratAbs op.1
    speakerSentiments := speakerSentiments
    topicSentiments := topicSentiments
    sentimentTimeline := createSentimentTimeline sentOf conversations }

/-- The `Diarization` dataclass. -/
structure Diarization where
  speaker : String
  speakingPercentage : ℚ
  totalWords : ℕ
  averageMessageLength : ℚ
  interruptionCount : ℕ
  questionCount : ℕ
  statementCount : ℕ
  dominantTopics : List String
  communicationStyle : String
  technicalVocabularyScore : ℚ
deriving DecidableEq, Repr

/-- Embeds `_extract_dominant_topics_for_speaker(speaker_text)`: top-3 taxonomy
groups by keyword-hit count (Python `sorted` is stable, descending). -/
def extractDominantTopicsForSpeaker (speakerText : String) : List String :=
  let textLower := pyLower speakerText
  let techScores := technicalKeywords.filterMap (fun g =>
    let score := countMatches g.2 textLower
    if score > 0 then some (g.1, score) else none)
  let bizScores := businessKeywords.filterMap (fun g =>
    let score := countMatches g.2 textLower
    if score > 0 then some (g.1, score) else none)
  let sorted := (techScores ++ bizScores).foldl (fun acc p => insertByCountDesc p acc) []
  (sorted.take 3).map (·.1)

/-- Embeds `_analyze_communication_style(messages)`. -/
def analyzeCommunicationStyle (messages : List Msg) : String :=
  if messages.isEmpty then "unknown"
  else
    let totalText := joinSpace (messages.map (·.message))
    let avgMessageLength := ratDiv ((pyWords totalText).length : ℚ) messages.length
    let questionRatio := ratDiv
      (((messages.filter (fun m => substrOf "?" m.message)).length : ℕ) : ℚ) messages.length
    if avgMessageLength > 50 then
      if questionRatio > Rat.divInt 3 10 then "detailed_inquisitive"
      else "detailed_explanatory"
    else if avgMessageLength > 20 then
      if questionRatio > Rat.divInt 3 10 then "conversational_questioning"
      else "conversational_informative"
    else
      if questionRatio > Rat.divInt 3 10 then "brief_questioning"
      else "brief_direct"

/-- Embeds `_calculate_technical_vocabulary_score(text)`: exact-word hits against
the flattened technical keyword list, over the word count. -/
def calculateTechnicalVocabularyScore (text : String) : ℚ :=
  let words := pyWords (pyLower text)
  if words.isEmpty then 0
  else
    let allTechnicalWords := technicalKeywords.foldl (fun acc g => acc ++ g.2) []
    let technicalWordCount := (words.filter (fun w => allTechnicalWords.contains w)).length
    ratDiv (technicalWordCount : ℚ) words.length

/-- The interruption estimate of `analyze_diarization`: within one speaker's
own message subsequence, a message of < 3 words immediately after one of
> 10 words. -/
def countInterruptions : List Msg → ℕ
  | [] => 0
  | [_] => 0
  | a :: b :: rest =>
    (if (pyWords b.message).length < 3 ∧ (pyWords a.message).length > 10 then 1 else 0)
      + countInterruptions (b :: rest)

/-- The per-participant body of the `analyze_diarization` loop: `none` for a
participant with no messages (the `continue`), otherwise the `Diarization`
record.  (`speaking_percentage` divides by the total message count, which is
positive whenever this branch is reached.) -/
def diarizationFor (conversations : List Msg) (totalMessages : ℕ)
    (speaker : String) : Option Diarization :=
  let speakerMessages := conversations.filter (fun m => m.speaker == speaker)
  if speakerMessages.isEmpty then none
  else
    let speakerMessageCount := speakerMessages.length
    let speakerWordsCount := (speakerMessages.map (fun m => (pyWords m.message).length)).sum
    let questionCount := (speakerMessages.filter (fun m => substrOf "?" m.message)).length
    let speakerText := joinSpace (speakerMessages.map (·.message))
    some
      { speaker := speaker
        speakingPercentage := ratMul (ratDiv (speakerMessageCount : ℚ) totalMessages) 100
        totalWords := speakerWordsCount
        averageMessageLength :=
          if speakerMessageCount > 0 then ratDiv (speakerWordsCount : ℚ) speakerMessageCount
          else 0
        interruptionCount := countInterruptions speakerMessages
        questionCount := questionCount
        statementCount := speakerMessageCount - questionCount
        dominantTopics := extractDominantTopicsForSpeaker speakerText
        communicationStyle := analyzeCommunicationStyle speakerMessages
        technicalVocabularyScore := calculateTechnicalVocabularyScore speakerText }

/-- Embeds `analyze_diarization()`: one record per participant with ≥ 1 message. -/
def analyzeDiarization (conversations : List Msg) (participants : List String) :
    List Diarization :=
  participants.filterMap (diarizationFor conversations conversations.length)

/-- The assembled report of `extract_comprehensive_insights` (metadata,
result arrays, summary statistics), with stable field names. -/
structure Report where
  metadataTimestamp : String
  totalMessagesAnalyzed : ℕ
  participants : List String
  topicsDiscussed : List TopicDiscussion
  speakerInsights : List SpeakerInsight
  sentimentAnalysis : SentimentAnalysis
  diarization : List Diarization
  totalTopics : ℕ
  totalInsights : ℕ
  averageTopicDuration : ℚ
  mostActiveSpeaker : Option String
  dominantCategories : List String
  keyThemes : List String
deriving DecidableEq, Repr

/-- Embeds `max(diarization, key=lambda x: x.speaking_percentage).speaker` with the
`if diarization else None` guard; first maximal entry wins. -/
def mostActiveSpeakerOf : List Diarization → Option String
  | [] => none
  | d :: ds => some ((ds.foldl (fun best q =>
      if q.speakingPercentage > best.speakingPercentage then q else best) d).speaker)

/-- Embeds `extract_comprehensive_insights()`: runs segmentation, speaker insights,
sentiment and diarization in order and assembles the report.  `now` stands
for `datetime.now().isoformat()`.  `none` propagates the uncaught
`ZeroDivisionError` of `_calculate_context_score`. -/
def extractComprehensiveInsights (pyHash : String → ℤ)
    (ai : String → String → String → Except String String)
    (sentOf : String → ℚ × ℚ) (now : String)
    (conversations : List Msg) (participants : List String) : Option Report :=
  match extractTopics pyHash participants conversations with
  | none => none
  | some topics =>
    let speakerInsights := extractSpeakerInsights ai sentOf conversations topics
    let sentimentAnalysis := analyzeSentiment sentOf conversations participants topics
    let diarization := analyzeDiarization conversations participants
    some
      { metadataTimestamp := now
        totalMessagesAnalyzed := conversations.length
        participants := participants
        topicsDiscussed := topics
        speakerInsights := speakerInsights
        sentimentAnalysis := sentimentAnalysis
        diarization := diarization
        totalTopics := topics.length
        totalInsights := speakerInsights.length
        averageTopicDuration :=
          if topics.isEmpty then 0
          else ratDiv (ratSum (topics.map (·.durationMinutes))) topics.length
        mostActiveSpeaker := mostActiveSpeakerOf diarization
        dominantCategories := mostCommon (topics.map (·.category)) 3
        keyThemes := mostCommon (topics.map (·.tags)).flatten 5 }

/-- A raw `conversation` JSON entry, whose fields may be missing. -/
structure RawMsg where
  speaker : Option String
  timestamp : Option String
  message : Option String
deriving DecidableEq, Repr

/-- Reading `msg['speaker']`, `msg['timestamp']`, `msg['message']`: a
missing key raises `KeyError`. -/
def toMsg (r : RawMsg) : Except String Msg :=
  match r.speaker, r.timestamp, r.message with
  | some s, some t, some m => .ok ⟨s, t, m⟩
  | _, _, _ => .error "KeyError"

/-- The pipeline on raw messages.  `extract_topics` reads `msg['message']`
of every message, and `analyze_sentiment` / `analyze_diarization` read
`msg['speaker']` and `msg['timestamp']` of every message, all unguardedly —
there is no skip/record path — so one missing field anywhere raises
`KeyError` and aborts the whole run with no report; `mapM` places that
abort at the first malformed message. -/
def runPipelineFromRaw (pyHash : String → ℤ)
    (ai : String → String → String → Except String String)
    (sentOf : String → ℚ × ℚ) (now : String)
    (raws : List RawMsg) (participants : List String) : Except String (Option Report) :=
  (raws.mapM toMsg).map (fun msgs =>
    extractComprehensiveInsights pyHash ai sentOf now msgs participants)

/-! Helper lemmas about the classifier -/

theorem countMatches_le_length (kws : List String) (ml : String) :
    countMatches kws ml ≤ kws.length :=
  List.length_filter_le _ _

/-- Every entry of the classifier's output is a technical-group entry, a
business-group entry, or the single personal/professional entry. -/
theorem mem_classify_cases {message : String} {p : String × ℚ}
    (hp : p ∈ classifyMessageTopics message) :
    (∃ g ∈ technicalKeywords,
        p = ("tech_" ++ g.1, ratDiv (countMatches g.2 (pyLower message)) g.2.length) ∧
        0 < countMatches g.2 (pyLower message)) ∨
    (∃ g ∈ businessKeywords,
        p = ("business_" ++ g.1, ratDiv (countMatches g.2 (pyLower message)) g.2.length) ∧
        0 < countMatches g.2 (pyLower message)) ∨
    (p = ("personal",
        ratDiv (countMatches personalIndicators (pyLower message)) personalIndicators.length) ∧
      countMatches professionalIndicators (pyLower message) <
        countMatches personalIndicators (pyLower message)) ∨
    (p = ("professional",
        ratDiv (countMatches professionalIndicators (pyLower message)) professionalIndicators.length) ∧
      ¬ countMatches professionalIndicators (pyLower message) <
        countMatches personalIndicators (pyLower message)) := by
  simp only [classifyMessageTopics, List.mem_append, List.mem_filterMap] at hp
  rcases hp with (⟨g, hg, hsome⟩ | ⟨g, hg, hsome⟩) | hpp
  · by_cases h : 0 < countMatches g.2 (pyLower message)
    · rw [if_pos h] at hsome
      exact Or.inl ⟨g, hg, (Option.some_injective _ hsome).symm, h⟩
    · rw [if_neg h] at hsome
      exact absurd hsome (Option.noConfusion)
  · by_cases h : 0 < countMatches g.2 (pyLower message)
    · rw [if_pos h] at hsome
      exact Or.inr (Or.inl ⟨g, hg, (Option.some_injective _ hsome).symm, h⟩)
    · rw [if_neg h] at hsome
      exact absurd hsome (Option.noConfusion)
  · by_cases h : countMatches professionalIndicators (pyLower message) <
        countMatches personalIndicators (pyLower message)
    · rw [if_pos h] at hpp
      exact Or.inr (Or.inr (Or.inl ⟨List.mem_singleton.mp hpp, h⟩))
    · rw [if_neg h] at hpp
      exact Or.inr (Or.inr (Or.inr ⟨List.mem_singleton.mp hpp, h⟩))

/-- Membership introduction for a matching technical group. -/
theorem classify_mem_of_tech {message : String} {g : String × List String}
    (hg : g ∈ technicalKeywords) (h : 0 < countMatches g.2 (pyLower message)) :
    ("tech_" ++ g.1, ratDiv (countMatches g.2 (pyLower message)) g.2.length) ∈
      classifyMessageTopics message := by
  simp only [classifyMessageTopics, List.mem_append]
  exact Or.inl (Or.inl (List.mem_filterMap.mpr ⟨g, hg, by rw [if_pos h]⟩))

/-- Membership introduction for a matching business group. -/
theorem classify_mem_of_business {message : String} {g : String × List String}
    (hg : g ∈ businessKeywords) (h : 0 < countMatches g.2 (pyLower message)) :
    ("business_" ++ g.1, ratDiv (countMatches g.2 (pyLower message)) g.2.length) ∈
      classifyMessageTopics message := by
  simp only [classifyMessageTopics, List.mem_append]
  exact Or.inl (Or.inr (List.mem_filterMap.mpr ⟨g, hg, by rw [if_pos h]⟩))

theorem tech_group_sizes : ∀ g ∈ technicalKeywords, 0 < g.2.length := by decide

theorem business_group_sizes : ∀ g ∈ businessKeywords, 0 < g.2.length := by decide

/-- Bounds for a group score `count / size` with `count ≤ size`, `0 < size`. -/
theorem group_score_bounds {c l : ℕ} (hcl : c ≤ l) (hl : 0 < l) :
    0 ≤ ratDiv (c : ℚ) (l : ℚ) ∧ ratDiv (c : ℚ) (l : ℚ) ≤ 1 := by
  rw [ratDiv_eq]
  constructor
  · exact div_nonneg (by positivity) (by positivity)
  · rw [div_le_one (by exact_mod_cast hl)]
    exact_mod_cast hcl

/-- A positive group score `count / size` with `0 < count`, `0 < size`. -/
theorem group_score_pos {c l : ℕ} (hc : 0 < c) (hl : 0 < l) :
    0 < ratDiv (c : ℚ) (l : ℚ) := by
  rw [ratDiv_eq]
  exact div_pos (by exact_mod_cast hc) (by exact_mod_cast hl)

/-! Claim C3: the classifier's label → score mapping -/

/-- Claim C3, counterexample.  On the empty message no indicator matches, the
tie goes to `professional`, and the classifier emits the score 0 — so not
every emitted score is strictly positive, refuting "every emitted score lies
in (0,1]". -/
theorem c3_counterexample :
    ("professional", (0 : ℚ)) ∈ classifyMessageTopics "" ∧ ¬ (0 : ℚ) > 0 := by
  constructor
  · decide
  · decide

/-- Claim C3 (amended).  For every message text: (1) every emitted score lies
in [0,1]; (2) every score other than the personal/professional one is
strictly positive; (3,4) each technical/business group with at least one
case-insensitive substring keyword match emits
`(match count)/(group size)` under its prefixed label; (5,6) conversely every
`tech_`/`business_`-labelled entry is such a group score with a positive
match count; (7) exactly one of `personal`/`professional` is present, chosen
by raw indicator-match count with ties favouring `professional`, its score
being `(match count)/(indicator-list size)` — which is 0 when the winning
side has no matches. -/
theorem c3_theorem (message : String) :
    (∀ p ∈ classifyMessageTopics message, 0 ≤ p.2 ∧ p.2 ≤ 1) ∧
    (∀ p ∈ classifyMessageTopics message,
        p.1 ≠ "personal" → p.1 ≠ "professional" → 0 < p.2) ∧
    (∀ g ∈ technicalKeywords, 0 < countMatches g.2 (pyLower message) →
        ("tech_" ++ g.1, (countMatches g.2 (pyLower message) : ℚ) / (g.2.length : ℚ)) ∈
          classifyMessageTopics message) ∧
    (∀ g ∈ businessKeywords, 0 < countMatches g.2 (pyLower message) →
        ("business_" ++ g.1, (countMatches g.2 (pyLower message) : ℚ) / (g.2.length : ℚ)) ∈
          classifyMessageTopics message) ∧
    (∀ p ∈ classifyMessageTopics message, strStarts "tech_" p.1 = true →
        ∃ g ∈ technicalKeywords, p.1 = "tech_" ++ g.1 ∧
          p.2 = (countMatches g.2 (pyLower message) : ℚ) / (g.2.length : ℚ) ∧
          0 < countMatches g.2 (pyLower message)) ∧
    (∀ p ∈ classifyMessageTopics message, strStarts "business_" p.1 = true →
        ∃ g ∈ businessKeywords, p.1 = "business_" ++ g.1 ∧
          p.2 = (countMatches g.2 (pyLower message) : ℚ) / (g.2.length : ℚ) ∧
          0 < countMatches g.2 (pyLower message)) ∧
    (if countMatches professionalIndicators (pyLower message) <
        countMatches personalIndicators (pyLower message) then
      ("personal", (countMatches personalIndicators (pyLower message) : ℚ) /
          (personalIndicators.length : ℚ)) ∈ classifyMessageTopics message ∧
        ∀ q : ℚ, ("professional", q) ∉ classifyMessageTopics message
    else
      ("professional", (countMatches professionalIndicators (pyLower message) : ℚ) /
          (professionalIndicators.length : ℚ)) ∈ classifyMessageTopics message ∧
        ∀ q : ℚ, ("personal", q) ∉ classifyMessageTopics message) := by
  have hpp6 : personalIndicators.length = 6 := by decide
  have hqq6 : professionalIndicators.length = 6 := by decide
  refine ⟨?_, ?_, ?_, ?_, ?_, ?_, ?_⟩
  · intro p hp
    rcases mem_classify_cases hp with ⟨g, hg, rfl, _⟩ | ⟨g, hg, rfl, _⟩ | ⟨rfl, _⟩ | ⟨rfl, _⟩
    · exact group_score_bounds (countMatches_le_length _ _) (tech_group_sizes g hg)
    · exact group_score_bounds (countMatches_le_length _ _) (business_group_sizes g hg)
    · exact group_score_bounds (countMatches_le_length _ _) (by rw [hpp6]; decide)
    · exact group_score_bounds (countMatches_le_length _ _) (by rw [hqq6]; decide)
  · intro p hp hpers hprof
    rcases mem_classify_cases hp with ⟨g, hg, rfl, hc⟩ | ⟨g, hg, rfl, hc⟩ | ⟨rfl, _⟩ | ⟨rfl, _⟩
    · exact group_score_pos hc (tech_group_sizes g hg)
    · exact group_score_pos hc (business_group_sizes g hg)
    · exact absurd rfl hpers
    · exact absurd rfl hprof
  · intro g hg h
    have := classify_mem_of_tech hg h
    rwa [ratDiv_eq] at this
  · intro g hg h
    have := classify_mem_of_business hg h
    rwa [ratDiv_eq] at this
  · intro p hp hpre
    rcases mem_classify_cases hp with ⟨g, hg, rfl, hc⟩ | ⟨g, hg, rfl, hc⟩ | ⟨rfl, _⟩ | ⟨rfl, _⟩
    · exact ⟨g, hg, rfl, by rw [ratDiv_eq], hc⟩
    · exact absurd hpre (by
        have : ∀ g ∈ businessKeywords, strStarts "tech_" ("business_" ++ g.1) = false := by
          decide
        simp [this g hg])
    · exact absurd hpre (by decide : ¬ strStarts "tech_" "personal" = true)
    · exact absurd hpre (by decide : ¬ strStarts "tech_" "professional" = true)
  · intro p hp hpre
    rcases mem_classify_cases hp with ⟨g, hg, rfl, hc⟩ | ⟨g, hg, rfl, hc⟩ | ⟨rfl, _⟩ | ⟨rfl, _⟩
    · exact absurd hpre (by
        have : ∀ g ∈ technicalKeywords, strStarts "business_" ("tech_" ++ g.1) = false := by
          decide
        simp [this g hg])
    · exact ⟨g, hg, rfl, by rw [ratDiv_eq], hc⟩
    · exact absurd hpre (by decide : ¬ strStarts "business_" "personal" = true)
    · exact absurd hpre (by decide : ¬ strStarts "business_" "professional" = true)
  · have htechne : ∀ g ∈ technicalKeywords,
        "tech_" ++ g.1 ≠ "personal" ∧ "tech_" ++ g.1 ≠ "professional" := by decide
    have hbizne : ∀ g ∈ businessKeywords,
        "business_" ++ g.1 ≠ "personal" ∧ "business_" ++ g.1 ≠ "professional" := by decide
    by_cases h : countMatches professionalIndicators (pyLower message) <
        countMatches personalIndicators (pyLower message)
    · rw [if_pos h]
      constructor
      · have : ("personal",
            ratDiv (countMatches personalIndicators (pyLower message))
              personalIndicators.length) ∈ classifyMessageTopics message := by
          simp only [classifyMessageTopics, List.mem_append]
          exact Or.inr (by rw [if_pos h]; exact List.mem_singleton.mpr rfl)
        rwa [ratDiv_eq] at this
      · intro q hq
        rcases mem_classify_cases hq with ⟨g, hg, heq, _⟩ | ⟨g, hg, heq, _⟩ |
          ⟨heq, _⟩ | ⟨_, hcon⟩
        · exact (htechne g hg).2 (congrArg Prod.fst heq).symm
        · exact (hbizne g hg).2 (congrArg Prod.fst heq).symm
        · exact absurd (congrArg Prod.fst heq)
            (by decide : ¬ ("professional" : String) = "personal")
        · exact hcon h
    · rw [if_neg h]
      constructor
      · have : ("professional",
            ratDiv (countMatches professionalIndicators (pyLower message))
              professionalIndicators.length) ∈ classifyMessageTopics message := by
          simp only [classifyMessageTopics, List.mem_append]
          exact Or.inr (by rw [if_neg h]; exact List.mem_singleton.mpr rfl)
        rwa [ratDiv_eq] at this
      · intro q hq
        rcases mem_classify_cases hq with ⟨g, hg, heq, _⟩ | ⟨g, hg, heq, _⟩ |
          ⟨_, hcon⟩ | ⟨heq, _⟩
        · exact (htechne g hg).1 (congrArg Prod.fst heq).symm
        · exact (hbizne g hg).1 (congrArg Prod.fst heq).symm
        · exact h hcon
        · exact absurd (congrArg Prod.fst heq)
            (by decide : ¬ ("personal" : String) = "professional")

/-- Claim C3, witness.  The theorem applied to the empty message: the
professional entry is emitted with score 0/6 = 0, inside [0,1]. -/
theorem c3_witness : 0 ≤ (0 : ℚ) ∧ (0 : ℚ) ≤ 1 :=
  ( c3_theorem "").1 ("professional", 0) (by decide)

/-! Claim C4: the topic-transition trigger -/

theorem lookupScore_eq_none_iff (ts : List (String × ℚ)) (l : String) :
    lookupScore ts l = none ↔ ts.any (fun q => q.1 == l) = false := by
  simp [lookupScore, List.find?_eq_none, List.any_eq_false]

theorem inAnyKeys_eq_false_iff (recent : List (List (String × ℚ))) (l : String) :
    inAnyKeys recent l = false ↔ ∀ ts ∈ recent, lookupScore ts l = none := by
  rw [inAnyKeys, List.any_eq_false]
  refine forall_congr' fun ts => imp_congr_right fun hts => ?_
  rw [Bool.not_eq_true, ← lookupScore_eq_none_iff]

theorem divInt_three_ten : Rat.divInt 3 10 = 3 / 10 := by
  rw [Rat.divInt_eq_div]; norm_num

/-- Claim C4, counterexample.  Buffer of three empty messages, current message
`"ai"`: the label `tech_ai_ml` (score 1/13) is absent from the keys of the
recent mean vector, so the code triggers a transition — although no label
present in either vector differs by more than 0.3 (missing = 0), so the
claim's criterion does not hold.  The buffer has ≥ 3 messages and no
transition phrase occurs. -/
theorem c4_counterexample :
    3 ≤ ([⟨"A", "t1", ""⟩, ⟨"A", "t2", ""⟩, ⟨"A", "t3", ""⟩] : List Msg).length ∧
    (∀ phrase ∈ transitionPhrases,
      substrOf phrase (pyLower (Msg.mk "B" "t4" "ai").message) = false) ∧
    isTopicTransition [⟨"A", "t1", ""⟩, ⟨"A", "t2", ""⟩, ⟨"A", "t3", ""⟩]
      ⟨"B", "t4", "ai"⟩ (classifyMessageTopics (Msg.mk "B" "t4" "ai").message) = true ∧
    specTransitionCriterion [⟨"A", "t1", ""⟩, ⟨"A", "t2", ""⟩, ⟨"A", "t3", ""⟩]
      ⟨"B", "t4", "ai"⟩ = false :=
  ⟨by decide, by decide, by decide, by decide⟩

/-- Claim C4 (amended).  With a buffer of ≥ 3 messages and no literal
transition phrase in the current message, a transition is triggered iff some
label present in the *current message's* score vector is either absent from
the keys of the mean vector of the last 3 buffered messages (in which case
it triggers regardless of the size of the difference), or differs from that
mean by more than 0.3 in absolute value.  Labels present only in the mean
vector are not compared. -/
theorem c4_theorem (topicBuffer : List Msg) (currentMsg : Msg)
    (h3 : 3 ≤ topicBuffer.length)
    (hph : ∀ phrase ∈ transitionPhrases,
      substrOf phrase (pyLower currentMsg.message) = false) :
    isTopicTransition topicBuffer currentMsg
        (classifyMessageTopics currentMsg.message) = true ↔
      ∃ p ∈ classifyMessageTopics currentMsg.message,
        (∀ ts ∈ (lastThree topicBuffer).map (fun m => classifyMessageTopics m.message),
            lookupScore ts p.1 = none) ∨
        |p.2 - avgScore
            ((lastThree topicBuffer).map (fun m => classifyMessageTopics m.message)) p.1|
          > 3 / 10 := by
  have hEmpty : topicBuffer.isEmpty = false := by
    cases topicBuffer with
    | nil => simp at h3
    | cons a l => rfl
  have hAny : transitionPhrases.any
      (fun phrase => substrOf phrase (pyLower currentMsg.message)) = false :=
    List.any_eq_false.mpr (fun x hx => by simp [hph x hx])
  rw [isTopicTransition]
  rw [if_neg (by simp [hEmpty]), if_neg (by simp [hAny]), if_pos h3]
  simp only [List.any_eq_true, Bool.or_eq_true, Bool.not_eq_true',
    inAnyKeys_eq_false_iff, decide_eq_true_eq, ratAbs_eq, ratSub_eq,
    divInt_three_ten]

/-- Claim C4, witness.  The amended criterion instantiated on a concrete
buffer and message satisfying both hypotheses. -/
theorem c4_witness :
    3 ≤ ([⟨"A", "t1", ""⟩, ⟨"A", "t2", ""⟩, ⟨"A", "t3", ""⟩] : List Msg).length ∧
    (∀ phrase ∈ transitionPhrases,
      substrOf phrase (pyLower (Msg.mk "B" "t4" "ai").message) = false) ∧
    (isTopicTransition [⟨"A", "t1", ""⟩, ⟨"A", "t2", ""⟩, ⟨"A", "t3", ""⟩]
        ⟨"B", "t4", "ai"⟩ (classifyMessageTopics (Msg.mk "B" "t4" "ai").message) = true ↔
      ∃ p ∈ classifyMessageTopics (Msg.mk "B" "t4" "ai").message,
        (∀ ts ∈ (lastThree [⟨"A", "t1", ""⟩, ⟨"A", "t2", ""⟩, ⟨"A", "t3", ""⟩]).map
            (fun m => classifyMessageTopics m.message),
            lookupScore ts p.1 = none) ∨
        |p.2 - avgScore
            ((lastThree [⟨"A", "t1", ""⟩, ⟨"A", "t2", ""⟩, ⟨"A", "t3", ""⟩]).map
              (fun m => classifyMessageTopics m.message)) p.1| > 3 / 10) :=
  ⟨by decide, by decide, c4_theorem _ _ (by decide) (by decide)⟩

/-! Claim C1: segmentation partitions the corpus -/

/-- The buffers finalized by the segmentation loop, starting from an active
topic with a nonempty buffer, concatenate to the buffer followed by the
remaining corpus: nothing is dropped or duplicated. -/
theorem finalizeBuffer_some_of_ne_nil (td : TopicData) {buf : List Msg}
    (hbuf : buf ≠ []) : finalizeBuffer (some td) buf = [(td, buf)] := by
  rw [finalizeBuffer, if_neg (by simpa [List.isEmpty_iff] using hbuf)]

theorem segmentsAux_flatten (rest : List Msg) :
    ∀ (td : TopicData) (buf : List Msg), buf ≠ [] →
      ((segmentsAux (some td) buf rest).map Prod.snd).flatten = buf ++ rest := by
  induction rest with
  | nil =>
    intro td buf hbuf
    simp only [segmentsAux]
    rw [finalizeBuffer_some_of_ne_nil td hbuf]
    simp
  | cons m rest ih =>
    intro td buf hbuf
    simp only [segmentsAux]
    by_cases htr : isTopicTransition buf m (classifyMessageTopics m.message) = true
    · rw [if_pos htr, finalizeBuffer_some_of_ne_nil td hbuf]
      simp only [List.map_append, List.flatten_append]
      rw [ih _ [m] (by simp)]
      simp
    · rw [if_neg htr, Option.map_some', ih _ (buf ++ [m]) (by simp)]
      simp

/-- Every segment the loop emits has a nonempty message buffer (the
`if current_topic and topic_buffer` guard). -/
theorem mem_finalizeBuffer_snd_ne_nil {cur : Option TopicData} {buf : List Msg}
    {s : TopicData × List Msg} (hs : s ∈ finalizeBuffer cur buf) : s.2 ≠ [] := by
  cases cur with
  | none => simp [finalizeBuffer] at hs
  | some td =>
    rw [finalizeBuffer] at hs
    by_cases hb : buf.isEmpty
    · rw [if_pos hb] at hs; simp at hs
    · rw [if_neg hb] at hs
      rcases List.mem_singleton.mp hs with rfl
      simpa [List.isEmpty_iff] using hb

theorem segmentsAux_snd_ne_nil (rest : List Msg) :
    ∀ (cur : Option TopicData) (buf : List Msg),
      ∀ s ∈ segmentsAux cur buf rest, s.2 ≠ [] := by
  induction rest with
  | nil =>
    intro cur buf s hs
    simp only [segmentsAux] at hs
    exact mem_finalizeBuffer_snd_ne_nil hs
  | cons m rest ih =>
    intro cur buf s hs
    simp only [segmentsAux] at hs
    by_cases htr : isTopicTransition buf m (classifyMessageTopics m.message) = true
    · rw [if_pos htr] at hs
      rcases List.mem_append.mp hs with hs | hs
      · exact mem_finalizeBuffer_snd_ne_nil hs
      · exact ih _ _ s hs
    · rw [if_neg htr] at hs
      exact ih _ _ s hs

/-- Embeds `_finalize_topic` on a nonempty buffer with a nonempty roster returns a
`TopicDiscussion` whose span and counts are those of the buffer and whose
classification comes from the accumulator. -/
theorem finalizeTopic_ok (pyHash : String → ℤ) (ps : List String) (td : TopicData)
    (msgs : List Msg) (hps : ps ≠ []) (hm : msgs ≠ []) :
    ∃ t : TopicDiscussion, finalizeTopic pyHash ps td msgs = some (some t) ∧
      t.messageCount = msgs.length ∧
      t.category = td.category ∧
      t.subcategory = td.primaryTopic ∧
      t.startTime = (msgs.head hm).timestamp ∧
      t.endTime = (msgs.getLast hm).timestamp ∧
      t.title = generateKeywordTitle msgs ∧
      t.id = "topic_" ++ toString (pyHash (generateKeywordTitle msgs)) ∧
      t.speakers = td.speakers := by
  cases msgs with
  | nil => exact absurd rfl hm
  | cons first rest =>
    obtain ⟨cs, hcs⟩ : ∃ cs, contextScore (first :: rest) ps = some cs := by
      rw [contextScore,
        if_neg (by simpa [List.length_eq_zero] using hps)]
      exact ⟨_, rfl⟩
    simp only [finalizeTopic]
    rw [hcs]
    refine ⟨_, rfl, rfl, rfl, rfl, rfl, ?_, rfl, rfl, rfl⟩
    show ((first :: rest).getLast?.getD first).timestamp = _
    rw [List.getLast?_eq_getLast _ hm, Option.getD_some]

/-- Mapping `_finalize_topic` over a list of nonempty segments succeeds and
produces, in order, one topic per segment with matching span and counts. -/
theorem mapM_finalize (pyHash : String → ℤ) (ps : List String) (hps : ps ≠ []) :
    ∀ segs : List (TopicData × List Msg), (∀ s ∈ segs, s.2 ≠ []) →
      ∃ res : List (Option TopicDiscussion),
        segs.mapM (fun s => finalizeTopic pyHash ps s.1 s.2) = some res ∧
        List.Forall₂ (fun (s : TopicData × List Msg) (t : TopicDiscussion) =>
          t.messageCount = s.2.length ∧
          t.category = s.1.category ∧ t.subcategory = s.1.primaryTopic ∧
          ∃ h : s.2 ≠ [],
            t.startTime = (s.2.head h).timestamp ∧
            t.endTime = (s.2.getLast h).timestamp) segs res.reduceOption := by
  intro segs
  induction segs with
  | nil => exact fun _ => ⟨[], rfl, List.Forall₂.nil⟩
  | cons s segs ih =>
    intro hne
    obtain ⟨res, hres, hf⟩ := ih (fun x hx => hne x (List.mem_cons_of_mem _ hx))
    have hs2 : s.2 ≠ [] := hne s (List.mem_cons_self _ _)
    obtain ⟨t, ht, h1, h2, h3, h4, h5, _, _, _⟩ :=
      finalizeTopic_ok pyHash ps s.1 s.2 hps hs2
    refine ⟨some t :: res, ?_, ?_⟩
    · rw [List.mapM_cons, ht, hres]; rfl
    · rw [List.reduceOption_cons_of_some]
      exact List.Forall₂.cons ⟨h1, h2, h3, hs2, h4, h5⟩ hf

/-- Claim C1 (confirmed, given a nonempty participant roster — an empty roster
makes `_finalize_topic` raise, claim C5).  `extract_topics` succeeds and
emits one `TopicDiscussion` per segment, in encounter (chronological) order;
the segments' buffers are nonempty and concatenate, in order, to the whole
corpus — so every message belongs to exactly one topic and the spans cover
the corpus with no gaps and no overlaps; each topic's `message_count`,
`start_time` and `end_time` are exactly its buffer's size and first/last
timestamps. -/
theorem c1_theorem (pyHash : String → ℤ) (ps : List String) (corpus : List Msg)
    (hps : ps ≠ []) :
    ∃ topics : List TopicDiscussion,
      extractTopics pyHash ps corpus = some topics ∧
      ((segments corpus).map Prod.snd).flatten = corpus ∧
      (∀ s ∈ segments corpus, s.2 ≠ []) ∧
      List.Forall₂ (fun (s : TopicData × List Msg) (t : TopicDiscussion) =>
        t.messageCount = s.2.length ∧
        ∃ h : s.2 ≠ [],
          t.startTime = (s.2.head h).timestamp ∧
          t.endTime = (s.2.getLast h).timestamp) (segments corpus) topics := by
  obtain ⟨res, hres, hf⟩ := mapM_finalize pyHash ps hps (segments corpus)
    (segmentsAux_snd_ne_nil corpus none [])
  refine ⟨res.reduceOption, ?_, ?_, segmentsAux_snd_ne_nil corpus none [], ?_⟩
  · rw [extractTopics, hres]; rfl
  · -- the flattened buffers are the corpus
    cases corpus with
    | nil => rfl
    | cons m rest =>
      rw [segments]
      simp only [segmentsAux]
      rw [if_pos (by simp [isTopicTransition])]
      simpa using segmentsAux_flatten rest _ [m] (by simp)
  · exact hf.imp (fun {a b} h => ⟨h.1, h.2.2.2⟩)

/-- Claim C1, witness.  The partition property instantiated on a concrete
corpus and roster. -/
theorem c1_witness :
    (["Alice", "Bob"] : List String) ≠ [] ∧
    ∃ topics : List TopicDiscussion,
      extractTopics (fun _ => 0) ["Alice", "Bob"]
          [⟨"Alice", "2025-06-12 10:00 AM", "hi"⟩] = some topics ∧
      ((segments [⟨"Alice", "2025-06-12 10:00 AM", "hi"⟩]).map Prod.snd).flatten =
        [⟨"Alice", "2025-06-12 10:00 AM", "hi"⟩] ∧
      (∀ s ∈ segments [⟨"Alice", "2025-06-12 10:00 AM", "hi"⟩], s.2 ≠ []) ∧
      List.Forall₂ (fun (s : TopicData × List Msg) (t : TopicDiscussion) =>
        t.messageCount = s.2.length ∧
        ∃ h : s.2 ≠ [],
          t.startTime = (s.2.head h).timestamp ∧
          t.endTime = (s.2.getLast h).timestamp)
        (segments [⟨"Alice", "2025-06-12 10:00 AM", "hi"⟩]) topics :=
  ⟨by decide, c1_theorem (fun _ => 0) ["Alice", "Bob"]
    [⟨"Alice", "2025-06-12 10:00 AM", "hi"⟩] (by decide)⟩

/-! Claim C10: topic categories -/

/-- The accumulator invariant behind C10: the category is one of the three
values `_start_new_topic` can produce, and a personal/professional primary
label forces `business` (neither starts with `tech_`). -/
def catOK (td : TopicData) : Prop :=
  (td.category = "technical" ∨ td.category = "business" ∨ td.category = "general") ∧
  ((td.primaryTopic = "personal" ∨ td.primaryTopic = "professional") →
    td.category = "business")

theorem startNewTopic_catOK (mts : List (String × ℚ)) (msg : Msg) :
    catOK (startNewTopic mts msg) := by
  rw [startNewTopic]
  cases hmax : argmaxFirst mts with
  | none =>
    show catOK { primaryTopic := "general_discussion", category := "general",
                 startTime := msg.timestamp, speakers := [msg.speaker],
                 topicsDiscussed := mts }
    exact ⟨Or.inr (Or.inr rfl), fun h => absurd h
      (by decide :
        ¬ (("general_discussion" : String) = "personal" ∨
           ("general_discussion" : String) = "professional"))⟩
  | some p =>
    show catOK { primaryTopic := p.1,
                 category := if strStarts "tech_" p.1 then "technical" else "business",
                 startTime := msg.timestamp, speakers := [msg.speaker],
                 topicsDiscussed := mts }
    by_cases hpre : strStarts "tech_" p.1 = true
    · refine ⟨Or.inl ?_, ?_⟩
      · show (if strStarts "tech_" p.1 = true then "technical" else "business") = "technical"
        exact if_pos hpre
      · intro h
        have h' : p.1 = "personal" ∨ p.1 = "professional" := h
        show (if strStarts "tech_" p.1 = true then "technical" else "business") = "business"
        rcases h' with h' | h' <;>
          (rw [h'] at hpre; exact absurd hpre (by decide))
    · have hcat : (if strStarts "tech_" p.1 = true then "technical" else "business") =
          "business" := if_neg hpre
      exact ⟨Or.inr (Or.inl hcat), fun _ => hcat⟩

theorem updateTopic_catOK {td : TopicData} (h : catOK td)
    (mts : List (String × ℚ)) : catOK (updateTopic td mts) := h

theorem mem_finalizeBuffer_catOK {cur : Option TopicData} {buf : List Msg}
    {s : TopicData × List Msg} (hcur : ∀ td, cur = some td → catOK td)
    (hs : s ∈ finalizeBuffer cur buf) : catOK s.1 := by
  cases cur with
  | none => simp [finalizeBuffer] at hs
  | some td =>
    rw [finalizeBuffer] at hs
    by_cases hb : buf.isEmpty
    · rw [if_pos hb] at hs; simp at hs
    · rw [if_neg hb] at hs
      rcases List.mem_singleton.mp hs with rfl
      exact hcur td rfl

/-- Every accumulator the loop ever finalizes satisfies the invariant. -/
theorem segmentsAux_catOK (rest : List Msg) :
    ∀ (cur : Option TopicData) (buf : List Msg),
      (∀ td, cur = some td → catOK td) →
      ∀ s ∈ segmentsAux cur buf rest, catOK s.1 := by
  induction rest with
  | nil =>
    intro cur buf hcur s hs
    simp only [segmentsAux] at hs
    exact mem_finalizeBuffer_catOK hcur hs
  | cons m rest ih =>
    intro cur buf hcur s hs
    simp only [segmentsAux] at hs
    by_cases htr : isTopicTransition buf m (classifyMessageTopics m.message) = true
    · rw [if_pos htr] at hs
      rcases List.mem_append.mp hs with hs | hs
      · exact mem_finalizeBuffer_catOK hcur hs
      · exact ih _ _ (fun td h => (Option.some_injective _ h) ▸
          startNewTopic_catOK (classifyMessageTopics m.message) m) s hs
    · rw [if_neg htr] at hs
      refine ih _ _ ?_ s hs
      intro td h
      cases cur with
      | none => simp at h
      | some td0 =>
        rw [Option.map_some'] at h
        exact (Option.some_injective _ h) ▸ updateTopic_catOK (hcur td0 rfl) _

/-- If `mapM f` over a list succeeds, every output element is the image of
some input element. -/
theorem mem_of_mapM_some {α β : Type} (f : α → Option β) :
    ∀ (l : List α) (res : List β), l.mapM f = some res →
      ∀ b ∈ res, ∃ a ∈ l, f a = some b := by
  intro l
  induction l with
  | nil =>
    intro res h b hb
    simp only [List.mapM_nil, pure, Option.some.injEq] at h
    subst h
    simp at hb
  | cons a l ih =>
    intro res h b hb
    rw [List.mapM_cons] at h
    cases hfa : f a with
    | none => rw [hfa] at h; simp at h
    | some v =>
      rw [hfa] at h
      cases hml : l.mapM f with
      | none => rw [hml] at h; simp at h
      | some vs =>
        rw [hml] at h
        simp only [Option.bind_eq_bind, Option.some_bind, pure, Option.some.injEq] at h
        subst h
        rcases List.mem_cons.mp hb with rfl | hb
        · exact ⟨a, List.mem_cons_self _ _, hfa⟩
        · obtain ⟨a', ha', hfa'⟩ := ih vs hml b hb
          exact ⟨a', List.mem_cons_of_mem _ ha', hfa'⟩

/-- Inversion of `_finalize_topic`: a produced topic copies the
accumulator's category and primary label. -/
theorem finalizeTopic_category {pyHash : String → ℤ} {ps : List String}
    {td : TopicData} {msgs : List Msg} {t : TopicDiscussion}
    (h : finalizeTopic pyHash ps td msgs = some (some t)) :
    t.category = td.category ∧ t.subcategory = td.primaryTopic := by
  cases msgs with
  | nil => simp [finalizeTopic] at h
  | cons first rest =>
    simp only [finalizeTopic] at h
    cases hcs : contextScore (first :: rest) ps with
    | none => rw [hcs] at h; simp at h
    | some cs =>
      rw [hcs] at h
      simp only [Option.some.injEq] at h
      subst h
      exact ⟨rfl, rfl⟩

/-- Every topic returned by `extract_topics` came from finalizing some
segment. -/
theorem mem_extractTopics {pyHash : String → ℤ} {ps : List String}
    {corpus : List Msg} {topics : List TopicDiscussion}
    (h : extractTopics pyHash ps corpus = some topics) :
    ∀ t ∈ topics, ∃ s ∈ segments corpus,
      finalizeTopic pyHash ps s.1 s.2 = some (some t) := by
  intro t ht
  rw [extractTopics] at h
  cases hm : (segments corpus).mapM (fun s => finalizeTopic pyHash ps s.1 s.2) with
  | none => rw [hm] at h; simp at h
  | some res =>
    rw [hm] at h
    simp only [Option.map_some', Option.some.injEq] at h
    subst h
    obtain ⟨s, hs, hfin⟩ := mem_of_mapM_some _ _ res hm (some t)
      (List.reduceOption_mem_iff.mp ht)
    exact ⟨s, hs, hfin⟩

/-- Claim C10 (confirmed).  Every `TopicDiscussion` emitted by segmentation has
category `technical`, `business` or `general`; when the primary
(highest-scoring) label recorded in `subcategory` is `personal` or
`professional` — labels that do not start with `tech_` — the category is
`business`, so `personal` and `professional` never occur as a topic
category. -/
theorem c10_theorem (pyHash : String → ℤ) (ps : List String) (corpus : List Msg)
    (topics : List TopicDiscussion)
    (h : extractTopics pyHash ps corpus = some topics) :
    ∀ t ∈ topics,
      (t.category = "technical" ∨ t.category = "business" ∨ t.category = "general") ∧
      ((t.subcategory = "personal" ∨ t.subcategory = "professional") →
        t.category = "business") := by
  intro t ht
  obtain ⟨s, hs, hfin⟩ := mem_extractTopics h t ht
  obtain ⟨hcat, hsub⟩ := finalizeTopic_category hfin
  have hok : catOK s.1 := segmentsAux_catOK corpus none [] (by simp) s hs
  rw [hcat, hsub]
  exact hok

/-- Claim C10, witness.  A concrete run: one topic, with `subcategory`
`professional` and category `business`. -/
theorem c10_witness :
    extractTopics (fun _ => 0) ["Alice"] [⟨"Alice", "2025-06-12 10:00 AM", "hi"⟩] =
      some [TopicDiscussion.mk "topic_0" "General Discussion" [] "business"
        "professional" "2025-06-12 10:00 AM" "2025-06-12 10:00 AM" 0 1 ["Alice"]
        [] [] [] (Rat.divInt 501 1000)] ∧
    (∀ t ∈ [TopicDiscussion.mk "topic_0" "General Discussion" [] "business"
        "professional" "2025-06-12 10:00 AM" "2025-06-12 10:00 AM" 0 1 ["Alice"]
        [] [] [] (Rat.divInt 501 1000)],
      (t.category = "technical" ∨ t.category = "business" ∨ t.category = "general") ∧
      ((t.subcategory = "personal" ∨ t.subcategory = "professional") →
        t.category = "business")) :=
  ⟨by decide, c10_theorem (fun _ => 0) ["Alice"]
    [⟨"Alice", "2025-06-12 10:00 AM", "hi"⟩] _ (by decide)⟩

/-! Claim C2: determinism and topic ids -/

/-- Claim C2 (code bug).  Two runs on the same one-message corpus with the
same roster, differing only in the runtime string-hash function (Python
salts `hash` per process): boundaries and titles agree, but the topic ids
differ — `id = f"topic_{hash(topic_title)}"` is a volatile runtime hash,
not the stable content hash the spec requires. -/
theorem c2_theorem :
    (extractTopics (fun _ => 0) ["Alice"]
        [⟨"Alice", "2025-06-12 10:00 AM", "hello world test"⟩]).map
      (List.map (fun t => t.id)) = some ["topic_0"] ∧
    (extractTopics (fun _ => 1) ["Alice"]
        [⟨"Alice", "2025-06-12 10:00 AM", "hello world test"⟩]).map
      (List.map (fun t => t.id)) = some ["topic_1"] ∧
    (extractTopics (fun _ => 0) ["Alice"]
        [⟨"Alice", "2025-06-12 10:00 AM", "hello world test"⟩]).map
      (List.map (fun t => t.title)) =
      (extractTopics (fun _ => 1) ["Alice"]
        [⟨"Alice", "2025-06-12 10:00 AM", "hello world test"⟩]).map
      (List.map (fun t => t.title)) ∧
    ("topic_0" : String) ≠ "topic_1" :=
  ⟨by decide, by decide, by decide, by decide⟩

/-! Claim C5: zero-denominator ratios -/

/-- Claim C5 (code bug).  The guarded ratios do resolve to 0 — engagement over
a 0-message topic is "low", expertise over empty text is "novice", a
participant with no messages is skipped by diarization, and the mean topic
duration of an empty run is 0 — but the context score's
`unique_speakers / len(self.participants)` has no guard: with an empty
participant roster, `_calculate_context_score` raises `ZeroDivisionError`
(modelled `none`) and `extract_topics` aborts instead of resolving to 0. -/
theorem c5_theorem :
    assessEngagementLevel [⟨"Alice", "t", "hi"⟩]
      (TopicDiscussion.mk "i" "t" [] "general" "s" "a" "b" 0 0 [] [] [] [] 0) = "low" ∧
    assessExpertiseLevel "" = "novice" ∧
    analyzeDiarization [] ["Alice"] = [] ∧
    (extractComprehensiveInsights (fun _ => 0) (fun _ _ _ => Except.error "down")
        (fun _ => (0, 0)) "now" [] ["Alice"]).map (fun r => r.averageTopicDuration) =
      some 0 ∧
    contextScore [⟨"Alice", "2025-06-12 10:00 AM", "hi"⟩] [] = none ∧
    extractTopics (fun _ => 0) [] [⟨"Alice", "2025-06-12 10:00 AM", "hi"⟩] = none :=
  ⟨by decide, by decide, by decide, by decide, by decide, by decide⟩

/-! Claim C9: malformed messages abort the run -/

/-- Claim C9 (code bug).  A corpus whose second message lacks the `message`
field: the run aborts with `KeyError` — the well-formed first message is
not analyzed and no report is produced, where the claim requires the
malformed message to be skipped and the rest analyzed. -/
theorem c9_theorem :
    runPipelineFromRaw (fun _ => 0) (fun _ _ _ => Except.error "down")
      (fun _ => (0, 0)) "now"
      [⟨some "Alice", some "2025-06-12 10:00 AM", some "All good here"⟩,
       ⟨some "Bob", some "2025-06-12 10:01 AM", none⟩]
      ["Alice", "Bob"] = Except.error "KeyError" := by
  rfl

/-! Claim C6: the empty corpus -/

theorem classifySentiment_zero : classifySentiment 0 = "neutral" := by decide

theorem analyzeDiarization_nil (ps : List String) : analyzeDiarization [] ps = [] := by
  rw [analyzeDiarization]
  exact List.filterMap_eq_nil_iff.mpr (fun s _ => rfl)

/-- Claim C6 (confirmed).  On the empty corpus the full pipeline raises no
exception and returns a report with `topics_discussed = []`,
`speaker_insights = []`, `diarization = []` and overall sentiment
`"neutral"` (for any roster, any capabilities, provided the sentiment
capability returns (0,0) on empty text as the interface requires). -/
theorem c6_theorem (pyHash : String → ℤ)
    (ai : String → String → String → Except String String)
    (sentOf : String → ℚ × ℚ) (now : String) (participants : List String)
    (hsent : sentOf "" = (0, 0)) :
    ∃ r : Report,
      extractComprehensiveInsights pyHash ai sentOf now [] participants = some r ∧
      r.topicsDiscussed = [] ∧ r.speakerInsights = [] ∧ r.diarization = [] ∧
      r.sentimentAnalysis.overallSentiment = "neutral" := by
  have htop : extractTopics pyHash participants [] = some [] := rfl
  rw [extractComprehensiveInsights, htop]
  refine ⟨_, rfl, rfl, rfl, analyzeDiarization_nil participants, ?_⟩
  show classifySentiment (sentOf "").1 = "neutral"
  rw [hsent]
  exact classifySentiment_zero

/-- Claim C6, witness.  The empty-corpus report at concrete capabilities. -/
theorem c6_witness :
    ((fun _ : String => ((0 : ℚ), (0 : ℚ))) "" = ((0 : ℚ), (0 : ℚ))) ∧
    ∃ r : Report,
      extractComprehensiveInsights (fun _ => 0) (fun _ _ _ => Except.error "down")
        (fun _ => (0, 0)) "2025-06-12T12:00:00" [] ["Alice"] = some r ∧
      r.topicsDiscussed = [] ∧ r.speakerInsights = [] ∧ r.diarization = [] ∧
      r.sentimentAnalysis.overallSentiment = "neutral" :=
  ⟨rfl, c6_theorem (fun _ => 0) (fun _ _ _ => Except.error "down")
    (fun _ => (0, 0)) "2025-06-12T12:00:00" ["Alice"] rfl⟩

/-! Claim C7: the deterministic insight fallback -/

/-- Claim C7 (confirmed).  For a (topic, speaker) pair with ≥ 2 messages, when
the injected text-generation call fails with any error, the returned
`SpeakerInsight`'s text is the deterministic heuristic: average message
length > 100 gives the "detailed explanations" framing, else more than 5
messages gives the "highly engaged" framing, else the generic "contributed
to" framing — each naming the topic title.  The failure is never surfaced:
the function is total and returns the record. -/
theorem c7_theorem (e : String) (sentOf : String → ℚ × ℚ) (speaker : String)
    (messages : List Msg) (topic : TopicDiscussion) (h2 : 2 ≤ messages.length) :
    (generateSpeakerInsight (Except.error e) sentOf speaker messages topic).insight =
      if ((messages.map (fun m => m.message.length)).sum : ℚ) / (messages.length : ℚ)
          > 100 then
        speaker ++ " provided detailed explanations and deep insights on " ++ topic.title
      else if 5 < messages.length then
        speaker ++ " was highly engaged in the discussion about " ++ topic.title
      else
        speaker ++ " contributed to the conversation about " ++ topic.title := by
  show generateHeuristicInsight speaker messages topic = _
  simp only [generateHeuristicInsight, ratDiv_eq]

/-- Claim C7, witness.  A concrete failing call: two short messages fall to the
generic "contributed to" framing. -/
theorem c7_witness :
    2 ≤ ([⟨"Bob", "t1", "ok"⟩, ⟨"Bob", "t2", "yes"⟩] : List Msg).length ∧
    (generateSpeakerInsight (Except.error "timeout") (fun _ => (0, 0)) "Bob"
        [⟨"Bob", "t1", "ok"⟩, ⟨"Bob", "t2", "yes"⟩]
        (TopicDiscussion.mk "topic_1" "Testing" [] "general" "s" "a" "b" 0 2 []
          [] [] [] 0)).insight =
      "Bob contributed to the conversation about Testing" := by
  refine ⟨by decide, ?_⟩
  rw [ c7_theorem "timeout" (fun _ => (0, 0)) "Bob" _ _ (by decide)]
  rw [if_neg (by
    have e1 : "ok".length = 2 := rfl
    have e2 : "yes".length = 3 := rfl
    norm_num [e1, e2]), if_neg (by decide)]
  rfl

/-! Claim C8: speaking percentages sum to 100 -/

theorem sum_map_add {α : Type} (l : List α) (f g : α → ℕ) :
    (l.map (fun x => f x + g x)).sum = (l.map f).sum + (l.map g).sum := by
  induction l with
  | nil => rfl
  | cons a l ih => simp only [List.map_cons, List.sum_cons, ih]; omega

theorem sum_map_ite_count (a : String) (ps : List String) :
    (ps.map (fun s => if a == s then 1 else 0)).sum = ps.count a := by
  induction ps with
  | nil => rfl
  | cons s ps ih =>
    simp only [List.map_cons, List.sum_cons, ih, List.count_cons]
    by_cases h : a = s
    · subst h; simp [Nat.add_comm]
    · simp [h, Ne.symm h, beq_iff_eq]

/-- With a duplicate-free roster covering every message's speaker, the
per-speaker message counts sum to the corpus size. -/
theorem sum_counts_eq_total (conversations : List Msg) (ps : List String)
    (hnd : ps.Nodup) (hcov : ∀ m ∈ conversations, m.speaker ∈ ps) :
    (ps.map (fun s => (conversations.filter (fun m => m.speaker == s)).length)).sum =
      conversations.length := by
  induction conversations with
  | nil => simp
  | cons m rest ih =>
    have hrest := ih (fun x hx => hcov x (List.mem_cons_of_mem _ hx))
    have hm : m.speaker ∈ ps := hcov m (List.mem_cons_self _ _)
    have hstep : ∀ s, ((m :: rest).filter (fun x => x.speaker == s)).length =
        (if m.speaker == s then 1 else 0) +
          (rest.filter (fun x => x.speaker == s)).length := by
      intro s
      rw [List.filter_cons]
      by_cases h : (m.speaker == s) = true
      · simp [h, Nat.add_comm]
      · simp [h]
    calc (ps.map (fun s => ((m :: rest).filter (fun x => x.speaker == s)).length)).sum
        = (ps.map (fun s => (if m.speaker == s then 1 else 0) +
            (rest.filter (fun x => x.speaker == s)).length)).sum := by
          simp only [hstep]
      _ = (ps.map (fun s => if m.speaker == s then 1 else 0)).sum +
            (ps.map (fun s => (rest.filter (fun x => x.speaker == s)).length)).sum :=
          sum_map_add ps _ _
      _ = ps.count m.speaker + rest.length := by rw [sum_map_ite_count, hrest]
      _ = 1 + rest.length := by rw [List.count_eq_one_of_mem hnd hm]
      _ = (m :: rest).length := by simp [Nat.add_comm]

theorem diarizationFor_none {conv : List Msg} {T : ℕ} {s : String}
    (h : (conv.filter (fun m => m.speaker == s)).isEmpty = true) :
    diarizationFor conv T s = none := by
  rw [diarizationFor, if_pos h]

theorem diarizationFor_pct {conv : List Msg} {T : ℕ} {s : String}
    (h : ¬ (conv.filter (fun m => m.speaker == s)).isEmpty = true) :
    (diarizationFor conv T s).map (fun d => d.speakingPercentage) =
      some (ratMul (ratDiv ((conv.filter (fun m => m.speaker == s)).length : ℚ)
        (T : ℚ)) 100) := by
  rw [diarizationFor, if_neg h]
  rfl

theorem sum_map_pct (ps : List String) (f : String → ℕ) (T : ℚ) :
    (ps.map (fun s => (f s : ℚ) / T * 100)).sum = ((ps.map f).sum : ℚ) / T * 100 := by
  induction ps with
  | nil => simp
  | cons s ps ih =>
    simp only [List.map_cons, List.sum_cons, ih]
    push_cast
    ring

/-- The emitted percentages sum to the per-roster percentage sum (skipped
zero-message participants contribute 0 either way). -/
theorem diarization_pct_sum (conv : List Msg) (ps : List String) :
    ((analyzeDiarization conv ps).map (fun d => d.speakingPercentage)).sum =
      (ps.map (fun s => ((conv.filter (fun m => m.speaker == s)).length : ℚ) /
        (conv.length : ℚ) * 100)).sum := by
  rw [analyzeDiarization]
  induction ps with
  | nil => rfl
  | cons s ps ih =>
    rw [List.filterMap_cons, List.map_cons, List.sum_cons]
    by_cases h : (conv.filter (fun m => m.speaker == s)).isEmpty = true
    · rw [diarizationFor_none h]
      have h0 : (conv.filter (fun m => m.speaker == s)).length = 0 := by
        simpa [List.length_eq_zero] using List.isEmpty_iff.mp h
      rw [ih, h0]
      simp
    · have := diarizationFor_pct (T := conv.length) h
      cases hd : diarizationFor conv conv.length s with
      | none => rw [hd] at this; simp at this
      | some d =>
        rw [hd] at this
        simp only [Option.map_some', Option.some.injEq] at this
        rw [List.map_cons, List.sum_cons, this, ih, ratMul_eq, ratDiv_eq]

/-- Claim C8 (confirmed).  For a nonempty corpus, a duplicate-free participant
roster covering every message's speaker: the `speaking_percentage` values
(own count / total count × 100) of the emitted diarization records sum to
exactly 100 (exact rational arithmetic — a fortiori within floating
tolerance). -/
theorem c8_theorem (conversations : List Msg) (participants : List String)
    (hne : conversations ≠ []) (hnd : participants.Nodup)
    (hcov : ∀ m ∈ conversations, m.speaker ∈ participants) :
    ((analyzeDiarization conversations participants).map
      (fun d => d.speakingPercentage)).sum = 100 := by
  have htot : (conversations.length : ℚ) ≠ 0 := by
    intro h
    exact hne (List.length_eq_zero.mp (by exact_mod_cast h))
  rw [diarization_pct_sum, sum_map_pct,
    sum_counts_eq_total conversations participants hnd hcov,
    div_self htot, one_mul]

/-- Claim C8, witness.  Three messages split 2/1 between two speakers:
200/3 + 100/3 = 100. -/
theorem c8_witness :
    ([⟨"Alice", "t1", "hi"⟩, ⟨"Bob", "t2", "yo"⟩, ⟨"Alice", "t3", "ok"⟩] : List Msg) ≠ [] ∧
    (["Alice", "Bob"] : List String).Nodup ∧
    (∀ m ∈ ([⟨"Alice", "t1", "hi"⟩, ⟨"Bob", "t2", "yo"⟩,
        ⟨"Alice", "t3", "ok"⟩] : List Msg), m.speaker ∈ ["Alice", "Bob"]) ∧
    ((analyzeDiarization [⟨"Alice", "t1", "hi"⟩, ⟨"Bob", "t2", "yo"⟩,
        ⟨"Alice", "t3", "ok"⟩] ["Alice", "Bob"]).map
      (fun d => d.speakingPercentage)).sum = 100 :=
  ⟨by decide, by decide, by decide,
    c8_theorem _ _ (by decide) (by decide) (by decide)⟩

end Tran
